import Mathlib

/-!
# Verification of the L1 syncer core (zk/syncer/l1_syncer.go)

Shallow embedding of the L1-chain event-ingestion engine: the range-planning
loop of `queryBlocks`, the poll loop of `Run`, the retry loop of
`getSequencedLogs`, and the backward batch-hash resolver `GetOldAccInputHash`
with its decoder `callGetRollupSequencedBatches`.

Block numbers and `uint64` counters are modelled as `Nat`: every arithmetic
operation the source performs on them (`low + blockRange`, `retry + 1`,
`loopCount + 1`, `batchNum - 1` guarded by `batchNum > 0`) stays far below
`2^64` and never underflows, so no mod-`2^64` wrapping is observable.  Bytes
are `Fin 256`, so a big-endian decode of 8 bytes is automatically below
`2^64`.  Network calls are modelled by oracle functions passed as arguments;
real-time sleeps are recorded as lists of the slept durations (in seconds).
-/

namespace L1Syncer

/-- Source struct `fetchJob{From, To uint64}` — a closed block interval
`[From, To]` to scan for logs. -/
structure fetchJob where
  From : Nat
  To : Nat
  deriving DecidableEq, Repr

/-- The planning loop at the top of `queryBlocks` (source lines 287-305), one
recursive call per iteration of the Go `for` loop, parameterised by the
moving `low` cursor.  The source computes `high := low + blockRange`, clips
`high` to `latestL1Block` when it overshoots, appends `fetchJob{low, high}`,
stops when `high == latestL1Block`, and otherwise advances
`low += blockRange + 1`.  Both the clip case (`high > latestL1Block`) and the
exact case (`high == latestL1Block`) append `⟨low, latestL1Block⟩` and stop,
which is the single branch `latestL1Block ≤ low + blockRange` here. -/
def planLoop (latestL1Block blockRange low : Nat) : List fetchJob :=
  if h : latestL1Block ≤ low + blockRange then
    [⟨low, latestL1Block⟩]
  else
    ⟨low, low + blockRange⟩ :: planLoop latestL1Block blockRange (low + blockRange + 1)
termination_by latestL1Block - low
decreasing_by
  omega

/-- The fetch list built by `queryBlocks`: the planning loop started at
`startBlock = s.lastCheckedL1Block` with the observed `s.latestL1Block` and
the configured `s.blockRange`. -/
def queryBlocksFetches (startBlock latestL1Block blockRange : Nat) : List fetchJob :=
  planLoop latestL1Block blockRange startBlock

theorem planLoop_ne_nil (l b low : Nat) : planLoop l b low ≠ [] := by
  rw [planLoop]
  split <;> simp

theorem planLoop_head_from (l b low : Nat) :
    ∃ t rest, planLoop l b low = ⟨low, t⟩ :: rest := by
  rw [planLoop]
  split
  · exact ⟨l, [], rfl⟩
  · exact ⟨low + b, _, rfl⟩

theorem planLoop_mem_from (l b low : Nat) :
    ∀ j ∈ planLoop l b low, low ≤ j.From := by
  induction low using planLoop.induct l b with
  | case1 low h =>
    intro j hj
    rw [planLoop, dif_pos h] at hj
    simp only [List.mem_singleton] at hj
    subst hj; exact le_refl _
  | case2 low h ih =>
    intro j hj
    rw [planLoop, dif_neg h] at hj
    rcases List.mem_cons.mp hj with rfl | hj
    · exact le_refl _
    · exact le_trans (by omega) (ih j hj)

theorem planLoop_mem_bounds (l b low : Nat) (hlow : low ≤ l) :
    ∀ j ∈ planLoop l b low, j.From ≤ j.To ∧ j.To ≤ l := by
  induction low using planLoop.induct l b with
  | case1 low h =>
    intro j hj
    rw [planLoop, dif_pos h] at hj
    simp only [List.mem_singleton] at hj
    subst hj; exact ⟨hlow, le_refl _⟩
  | case2 low h ih =>
    intro j hj
    rw [planLoop, dif_neg h] at hj
    rcases List.mem_cons.mp hj with rfl | hj
    · exact ⟨by dsimp only; omega, by dsimp only; omega⟩
    · exact ih (by omega) j hj

theorem planLoop_cover (l b low : Nat) (hlow : low ≤ l) (n : Nat) :
    (∃ j ∈ planLoop l b low, j.From ≤ n ∧ n ≤ j.To) ↔ (low ≤ n ∧ n ≤ l) := by
  induction low using planLoop.induct l b with
  | case1 low h =>
    rw [planLoop, dif_pos h]
    constructor
    · rintro ⟨j, hj, hn⟩
      simp only [List.mem_singleton] at hj
      subst hj
      exact hn
    · intro hn
      exact ⟨⟨low, l⟩, List.mem_singleton_self _, hn.1, hn.2⟩
  | case2 low h ih =>
    rw [planLoop, dif_neg h]
    constructor
    · rintro ⟨j, hj, hn1, hn2⟩
      rcases List.mem_cons.mp hj with rfl | hj
      · dsimp only at hn1 hn2
        exact ⟨hn1, by omega⟩
      · have := (ih (by omega)).mp ⟨j, hj, hn1, hn2⟩
        exact ⟨by omega, this.2⟩
    · rintro ⟨hn1, hn2⟩
      by_cases hc : n ≤ low + b
      · exact ⟨⟨low, low + b⟩, List.mem_cons_self _ _, hn1, hc⟩
      · obtain ⟨j, hj, hn⟩ := (ih (by omega)).mpr ⟨by omega, hn2⟩
        exact ⟨j, List.mem_cons_of_mem _ hj, hn⟩

theorem planLoop_chain (l b low : Nat) :
    List.Chain' (fun a c => c.From = a.To + 1) (planLoop l b low) := by
  induction low using planLoop.induct l b with
  | case1 low h =>
    rw [planLoop, dif_pos h]
    simp
  | case2 low h ih =>
    rw [planLoop, dif_neg h]
    obtain ⟨t, rest, heq⟩ := planLoop_head_from l b (low + b + 1)
    rw [heq] at ih ⊢
    exact List.Chain'.cons rfl ih

theorem planLoop_pairwise (l b low : Nat) :
    List.Pairwise (fun a c => a.To < c.From) (planLoop l b low) := by
  induction low using planLoop.induct l b with
  | case1 low h =>
    rw [planLoop, dif_pos h]
    simp
  | case2 low h ih =>
    rw [planLoop, dif_neg h]
    refine List.Pairwise.cons ?_ ih
    intro j hj
    have := planLoop_mem_from l b (low + b + 1) j hj
    simp only
    omega

/-- Claim C2: for a cycle with `lastCheckedL1Block ≤ latestL1Block`, the
FetchJobs planned by `queryBlocks` are ordered by `From` ascending,
contiguous (each From is the previous To plus one), non-overlapping, and
their union is exactly the closed interval
`[lastCheckedL1Block, latestL1Block]`. -/
theorem queryBlocks_plan_invariants (startBlock latestL1Block blockRange : Nat)
    (h : startBlock ≤ latestL1Block) :
    List.Pairwise (fun a c => a.From < c.From)
        (queryBlocksFetches startBlock latestL1Block blockRange) ∧
    List.Chain' (fun a c => c.From = a.To + 1)
        (queryBlocksFetches startBlock latestL1Block blockRange) ∧
    List.Pairwise (fun a c => a.To < c.From)
        (queryBlocksFetches startBlock latestL1Block blockRange) ∧
    (∀ n, (∃ j ∈ queryBlocksFetches startBlock latestL1Block blockRange,
             j.From ≤ n ∧ n ≤ j.To) ↔ (startBlock ≤ n ∧ n ≤ latestL1Block)) := by
  refine ⟨?_, planLoop_chain _ _ _, planLoop_pairwise _ _ _, planLoop_cover _ _ _ h⟩
  have hp := planLoop_pairwise latestL1Block blockRange startBlock
  refine hp.imp_of_mem ?_
  intro a c ha hc hlt
  have hb := planLoop_mem_bounds latestL1Block blockRange startBlock h a ha
  omega

theorem queryBlocks_plan_invariants_witness :
    List.Pairwise (fun a c => a.From < c.From) (queryBlocksFetches 0 2 1) ∧
    List.Chain' (fun a c => c.From = a.To + 1) (queryBlocksFetches 0 2 1) ∧
    List.Pairwise (fun a c => a.To < c.From) (queryBlocksFetches 0 2 1) ∧
    (∀ n, (∃ j ∈ queryBlocksFetches 0 2 1, j.From ≤ n ∧ n ≤ j.To) ↔ (0 ≤ n ∧ n ≤ 2)) :=
  queryBlocks_plan_invariants 0 2 1 (by norm_num)

/-- Claim C7 (counterexample): the planner at `start=0, latest=2500,
blockRange=1000` does NOT produce the jobs `[0,1000], [1001,2000],
[2001,2500]` stated by the claim: the source advances
`low += blockRange + 1` from the previous `low`, so each job spans
`blockRange + 1` blocks. -/
theorem plan_example_counterexample :
    queryBlocksFetches 0 2500 1000 ≠
      [⟨0, 1000⟩, ⟨1001, 2000⟩, ⟨2001, 2500⟩] := by
  simp [queryBlocksFetches, planLoop]

/-- Claim C7 (amended): the planner at `start=0, latest=2500,
blockRange=1000` produces exactly the three jobs
`[0,1000], [1001,2001], [2002,2500]`. -/
theorem plan_example_actual :
    queryBlocksFetches 0 2500 1000 = [⟨0, 1000⟩, ⟨1001, 2001⟩, ⟨2002, 2500⟩] := by
  simp [queryBlocksFetches, planLoop]

/-- Claim C8 (counterexample): for `start=5 > latest=3` the planner emits the
single degenerate job `[5,3]` — not the empty sequence the claim states.  The
planning loop always appends at least one job before it can stop. -/
theorem plan_degenerate_counterexample :
    queryBlocksFetches 5 3 1 = [⟨5, 3⟩] ∧ queryBlocksFetches 5 3 1 ≠ [] := by
  constructor <;> simp [queryBlocksFetches, planLoop]

/-- Claim C8 (amended): for every `start > latest` the planner produces the
single degenerate job `[start, latest]` (with `From > To`), and its output is
in particular never the empty sequence, so `queryBlocks` never reaches the
empty-job-sequence situation the claim describes.  (In the program this
degenerate input is unreachable: `queryBlocks` runs only when
`latestL1Block > lastCheckedL1Block`.) -/
theorem plan_degenerate (startBlock latestL1Block blockRange : Nat)
    (h : latestL1Block < startBlock) :
    queryBlocksFetches startBlock latestL1Block blockRange =
      [⟨startBlock, latestL1Block⟩] ∧
    queryBlocksFetches startBlock latestL1Block blockRange ≠ [] := by
  constructor
  · rw [queryBlocksFetches, planLoop, dif_pos (by omega)]
  · rw [queryBlocksFetches]
    exact planLoop_ne_nil _ _ _

theorem plan_degenerate_witness :
    3 < 5 ∧ (queryBlocksFetches 5 3 1 = [⟨5, 3⟩] ∧ queryBlocksFetches 5 3 1 ≠ []) :=
  ⟨by norm_num, plan_degenerate 5 3 1 (by norm_num)⟩

/-! ## The poll loop of `Run` (source lines 121-158) -/

/-- The mutable fields of `L1Syncer` touched by one iteration of the poll
loop: the atomic `lastCheckedL1Block`, the plain `latestL1Block`, and the
atomic `isDownloading`. -/
structure SyncState where
  lastCheckedL1Block : Nat
  latestL1Block : Nat
  isDownloading : Bool
  deriving DecidableEq, Repr

/-- One iteration of the `for` loop inside `Run` (source lines 139-156).
`latestRes` is the outcome of `getLatestL1Block` (`none` = error; on success
the source also stores the value into `s.latestL1Block`, line 276); `cycleOk`
is the outcome of `queryBlocks`.  Returns the updated state and whether an
ingestion cycle was triggered.  `lastCheckedL1Block` is stored only when the
cycle returned no error; `isDownloading` is stored `false` at the end of
every iteration. -/
def runIteration (s : SyncState) (latestRes : Option Nat) (cycleOk : Bool) :
    SyncState × Bool :=
  match latestRes with
  | none => ({ s with isDownloading := false }, false)
  | some latest =>
    let s1 : SyncState := { s with latestL1Block := latest }
    if s1.lastCheckedL1Block < latest then
      let s2 : SyncState := { s1 with isDownloading := true }
      let s3 : SyncState :=
        if cycleOk then { s2 with lastCheckedL1Block := latest } else s2
      ({ s3 with isDownloading := false }, true)
    else
      ({ s1 with isDownloading := false }, false)

/-- A run of successive poll-loop iterations, fed by a list of
(`getLatestL1Block` outcome, `queryBlocks` outcome) pairs. -/
def runSteps (s : SyncState) (inputs : List (Option Nat × Bool)) : SyncState :=
  inputs.foldl (fun st p => (runIteration st p.1 p.2).1) s

theorem runIteration_lastChecked_mono (s : SyncState) (r : Option Nat) (c : Bool) :
    s.lastCheckedL1Block ≤ (runIteration s r c).1.lastCheckedL1Block := by
  rcases r with _ | l
  · exact le_refl _
  · rw [runIteration]
    dsimp only
    split
    · split <;> dsimp only <;> omega
    · exact le_refl _

theorem runSteps_lastChecked_mono (inputs : List (Option Nat × Bool)) :
    ∀ s : SyncState, s.lastCheckedL1Block ≤ (runSteps s inputs).lastCheckedL1Block := by
  induction inputs with
  | nil => intro s; exact le_refl _
  | cons p rest ih =>
    intro s
    exact le_trans (runIteration_lastChecked_mono s p.1 p.2) (ih _)

/-- Claim C3: `lastCheckedL1Block` is non-decreasing across every sequence of
poll-loop iterations; a cycle is triggered exactly when the queried latest
finalized block strictly exceeds it; it is set to that latest block only on a
clean cycle; and it is left unchanged when the latest-block query fails, when
the latest block does not strictly exceed it, or when the cycle errors. -/
theorem run_checkpoint_monotone :
    (∀ (s : SyncState) (inputs : List (Option Nat × Bool)),
      s.lastCheckedL1Block ≤ (runSteps s inputs).lastCheckedL1Block) ∧
    (∀ (s : SyncState) (r : Option Nat) (c : Bool),
      ((runIteration s r c).2 = true ↔ ∃ l, r = some l ∧ s.lastCheckedL1Block < l) ∧
      (∀ l, r = some l → s.lastCheckedL1Block < l →
        (runIteration s r c).1.lastCheckedL1Block =
          if c then l else s.lastCheckedL1Block) ∧
      (r = none → (runIteration s r c).1.lastCheckedL1Block = s.lastCheckedL1Block) ∧
      (∀ l, r = some l → ¬ s.lastCheckedL1Block < l →
        (runIteration s r c).1.lastCheckedL1Block = s.lastCheckedL1Block) ∧
      (c = false → (runIteration s r c).1.lastCheckedL1Block = s.lastCheckedL1Block)) := by
  refine ⟨fun s inputs => runSteps_lastChecked_mono inputs s, fun s r c => ?_⟩
  rcases r with _ | l
  · refine ⟨by simp [runIteration], ?_, fun _ => rfl, ?_, fun _ => rfl⟩
    · rintro l ⟨⟩
    · rintro l ⟨⟩
  · refine ⟨?_, ?_, ?_, ?_, ?_⟩
    · rw [runIteration]
      dsimp only
      split
      · exact ⟨fun _ => ⟨l, rfl, by assumption⟩, fun _ => rfl⟩
      · constructor
        · intro hf
          exact absurd hf (by simp)
        · rintro ⟨l', hl', hlt⟩
          injection hl' with h'
          subst h'
          exact absurd hlt (by assumption)
    · intro l' hl' hlt
      injection hl' with h'
      subst h'
      rw [runIteration]
      dsimp only
      rw [if_pos hlt]
      rcases c with _ | _ <;> rfl
    · rintro ⟨⟩
    · intro l' hl' hlt
      injection hl' with h'
      subst h'
      rw [runIteration]
      dsimp only
      rw [if_neg hlt]
    · rintro rfl
      rw [runIteration]
      dsimp only
      split
      · rfl
      · rfl

theorem run_checkpoint_monotone_witness :
    (⟨4, 0, true⟩ : SyncState).lastCheckedL1Block ≤
      (runSteps ⟨4, 0, true⟩ [(some 9, true)]).lastCheckedL1Block ∧
    (runIteration ⟨4, 0, true⟩ (some 9) false).1.lastCheckedL1Block =
      (⟨4, 0, true⟩ : SyncState).lastCheckedL1Block :=
  ⟨run_checkpoint_monotone.1 ⟨4, 0, true⟩ [(some 9, true)],
   (run_checkpoint_monotone.2 ⟨4, 0, true⟩ (some 9) false).2.2.2.2 rfl⟩

theorem runIteration_none (s : SyncState) (c : Bool) :
    (runIteration s none c).1 = { s with isDownloading := false } := rfl

theorem runIteration_some_fields (s : SyncState) (l : Nat) (c : Bool) :
    (runIteration s (some l) c).1.latestL1Block = l ∧
    ((runIteration s (some l) c).1.lastCheckedL1Block = s.lastCheckedL1Block ∨
     (runIteration s (some l) c).1.lastCheckedL1Block = l) := by
  rw [runIteration]
  dsimp only
  split
  · split <;> dsimp only <;> exact ⟨rfl, by tauto⟩
  · exact ⟨rfl, Or.inl rfl⟩

theorem runSteps_inv_after (inputs : List (Option Nat × Bool)) :
    ∀ s : SyncState, s.lastCheckedL1Block ≤ s.latestL1Block →
    List.Chain' (· ≤ ·) (s.latestL1Block :: inputs.filterMap Prod.fst) →
    (runSteps s inputs).lastCheckedL1Block ≤ (runSteps s inputs).latestL1Block := by
  induction inputs with
  | nil => intro s h _; exact h
  | cons p rest ih =>
    intro s h hchain
    rcases p with ⟨r, c⟩
    rcases r with _ | l
    · exact ih _ h hchain
    · have hchain' : List.Chain' (· ≤ ·)
          (s.latestL1Block :: l :: rest.filterMap Prod.fst) := hchain
      have hll : s.latestL1Block ≤ l := (List.chain'_cons.mp hchain').1
      have hch' := (List.chain'_cons.mp hchain').2
      obtain ⟨hlat, hlast⟩ := runIteration_some_fields s l c
      refine ih _ ?_ ?_
      · rcases hlast with heq | heq <;> rw [heq, hlat] <;> omega
      · rw [hlat]; exact hch'

theorem runSteps_inv_of_first_success (inputs : List (Option Nat × Bool)) :
    ∀ s : SyncState,
    List.Chain' (· ≤ ·) (s.lastCheckedL1Block :: inputs.filterMap Prod.fst) →
    inputs.filterMap Prod.fst ≠ [] →
    (runSteps s inputs).lastCheckedL1Block ≤ (runSteps s inputs).latestL1Block := by
  induction inputs with
  | nil => intro s _ hne; exact absurd rfl hne
  | cons p rest ih =>
    intro s hchain hne
    rcases p with ⟨r, c⟩
    rcases r with _ | l
    · exact ih _ hchain hne
    · have hchain' : List.Chain' (· ≤ ·)
          (s.lastCheckedL1Block :: l :: rest.filterMap Prod.fst) := hchain
      have hll : s.lastCheckedL1Block ≤ l := (List.chain'_cons.mp hchain').1
      have hch' := (List.chain'_cons.mp hchain').2
      obtain ⟨hlat, hlast⟩ := runIteration_some_fields s l c
      refine runSteps_inv_after rest _ ?_ ?_
      · rcases hlast with heq | heq <;> rw [heq, hlat] <;> omega
      · rw [hlat]; exact hch'

/-- Claim C9 (counterexample): with initial checkpoint 100 and a first
successful latest-block query returning 50, the state after that iteration
has `lastCheckedL1Block = 100 > 50 = latestL1Block`: the claimed invariant
fails for an arbitrary initial checkpoint. -/
theorem run_invariant_counterexample :
    ¬ ((runSteps ⟨100, 0, true⟩ [(some 50, true)]).lastCheckedL1Block ≤
       (runSteps ⟨100, 0, true⟩ [(some 50, true)]).latestL1Block) := by
  decide

/-- Claim C9 (amended): `lastCheckedL1Block ≤ latestL1Block` holds after the
first successful latest-block query provided the initial checkpoint does not
exceed the first successful query result and successive successful results
are non-decreasing (the chain hypothesis); without that proviso the invariant
fails (see the counterexample).  The start state `⟨init, 0, true⟩` is the
state `Run` sets up before its loop. -/
theorem run_invariant_amended (init : Nat) (inputs : List (Option Nat × Bool))
    (hchain : List.Chain' (· ≤ ·) (init :: inputs.filterMap Prod.fst))
    (hne : inputs.filterMap Prod.fst ≠ []) :
    (runSteps ⟨init, 0, true⟩ inputs).lastCheckedL1Block ≤
      (runSteps ⟨init, 0, true⟩ inputs).latestL1Block :=
  runSteps_inv_of_first_success inputs ⟨init, 0, true⟩ hchain hne

theorem run_invariant_amended_witness :
    (runSteps ⟨3, 0, true⟩ [(none, true), (some 5, false)]).lastCheckedL1Block ≤
      (runSteps ⟨3, 0, true⟩ [(none, true), (some 5, false)]).latestL1Block :=
  run_invariant_amended 3 [(none, true), (some 5, false)]
    (show List.Chain' (· ≤ ·) [3, 5] from List.chain'_pair.mpr (by norm_num))
    (by simp)

/-! ## The worker retry loop of `getSequencedLogs` (source lines 354-399) -/

/-- Source struct `jobResult` with the log payload left abstract: `Size` is
the interval width, `Error`/`Logs` the outcome of the final `FilterLogs`
attempt. -/
structure jobResultM (E L : Type) where
  Size : Nat
  Error : Option E
  Logs : Option L
  deriving DecidableEq, Repr

/-- The inner retry loop of `getSequencedLogs` (source lines 372-390):
`filterLogs n` is the outcome of the `n`-th `FilterLogs` call (each call goes
to the next rotated endpoint).  On error the source increments `retry`, gives
up once `retry > 5`, and otherwise sleeps `retry * 2` seconds and loops.
Returns (number of `FilterLogs` calls made, sleeps performed in seconds,
outcome of the last call). -/
def retryFilterLogs {E L : Type} (filterLogs : Nat → Except E L)
    (attempt retry : Nat) : Nat × List Nat × Except E L :=
  match filterLogs attempt with
  | .ok logs => (1, [], .ok logs)
  | .error e =>
    if h : 5 < retry + 1 then
      (1, [], .error e)
    else
      let rest := retryFilterLogs filterLogs (attempt + 1) (retry + 1)
      (rest.1 + 1, (retry + 1) * 2 :: rest.2.1, rest.2.2)
termination_by 6 - retry
decreasing_by
  omega

/-- One job processed by `getSequencedLogs`: run the retry loop, then emit
exactly one `jobResult` — `{Error: err, Logs: nil}` on exhaustion (the worker
returns and never requeues the job), or `{Size: To - From, Logs: logs}` on
success. -/
def getSequencedLogsJob {E L : Type} (filterLogs : Nat → Except E L)
    (j : fetchJob) : Nat × List Nat × jobResultM E L :=
  let r := retryFilterLogs filterLogs 0 0
  match r.2.2 with
  | .error e => (r.1, r.2.1, ⟨0, some e, none⟩)
  | .ok logs => (r.1, r.2.1, ⟨j.To - j.From, none, some logs⟩)

/-- Claim C4: a job whose log query fails on every attempt makes exactly 6
attempts (1 initial + 5 retries), sleeps 2, 4, 6, 8, 10 seconds between
consecutive attempts, and emits exactly one JobResult carrying the last
error (the error of the 6th call) and no logs. -/
theorem fetch_retry_exhaustion {E L : Type} (errs : Nat → E) (j : fetchJob) :
    getSequencedLogsJob (E := E) (L := L) (fun n => .error (errs n)) j =
      (6, [2, 4, 6, 8, 10], ⟨0, some (errs 5), none⟩) := by
  have h : retryFilterLogs (E := E) (L := L) (fun n => .error (errs n)) 0 0 =
      (6, [2, 4, 6, 8, 10], .error (errs 5)) := by
    rw [retryFilterLogs, retryFilterLogs, retryFilterLogs, retryFilterLogs,
        retryFilterLogs, retryFilterLogs]
    norm_num
  rw [getSequencedLogsJob, h]

/-! ## The backward resolver `GetOldAccInputHash` (source lines 170-205)
and its decoder `callGetRollupSequencedBatches` (source lines 401-426) -/

/-- Outcome of one `CallContract` invocation: an RPC error, or a raw byte
response. -/
inductive CallRes where
  | err : CallRes
  | ok : List (Fin 256) → CallRes

/-- Decoded outcome of `callGetRollupSequencedBatches`: the RPC error, the
two distinguished short-response errors (`errorShortResponseLT32`,
`errorShortResponseLT96`), or a hash (bytes 0-31) together with the
big-endian `uint64` at bytes 88-95. -/
inductive Decoded where
  | errCall : Decoded
  | errLT32 : Decoded
  | errLT96 : Decoded
  | ok : List (Fin 256) → Nat → Decoded
  deriving DecidableEq, Repr

/-- `types.ZeroHash` — the all-zero 32-byte hash. -/
def ZeroHash : List (Fin 256) := List.replicate 32 0

/-- `binary.BigEndian.Uint64`: big-endian fold over 8 bytes; each byte is
below 256 so the result is below `2^64` with no truncation. -/
def beUint64 (bs : List (Fin 256)) : Nat :=
  bs.foldl (fun acc b => acc * 256 + b.val) 0

/-- Decoding part of `callGetRollupSequencedBatches` (source lines 411-425),
applied to the `CallContract` outcome: responses shorter than 32 bytes give
`errorShortResponseLT32`, shorter than 96 give `errorShortResponseLT96`,
otherwise the hash is `resp[:32]` and the previous batch number is the
big-endian `uint64` at `resp[88:96]`. -/
def callGetRollupSequencedBatches (r : CallRes) : Decoded :=
  match r with
  | .err => .errCall
  | .ok resp =>
    if resp.length < 32 then .errLT32
    else
      let h := resp.take 32
      if resp.length < 96 then .errLT96
      else .ok h (beUint64 ((resp.drop 88).take 8))

/-- Result of `GetOldAccInputHash`: a hash, or the "too many retries"
error (which the source pairs with the zero value `common.Hash{}`). -/
inductive ResolveRes where
  | ok : List (Fin 256) → ResolveRes
  | tooManyRetries : ResolveRes
  deriving DecidableEq, Repr

/-- The `for` loop of `GetOldAccInputHash` (source lines 171-204).  `oracle`
maps the current `batchNum` to the `CallContract` outcome for the encoded
`rollupSequencedBatches(rollupId, batchNum)` call.  In the source
`loopCount` starts at 0 and only ever grows by 1, so `loopCount ≤ 10` always
holds there; that bound is carried as the hypothesis `hle` to make the
`loopCount == 10` exit well-founded over all arguments.  The second
component of the result records the backoff sleeps (`loopCount * 2`
seconds), performed only in the generic-error branch. -/
def goResolve (oracle : Nat → CallRes) (batchNum loopCount : Nat)
    (hle : loopCount ≤ 10) : ResolveRes × List Nat :=
  if h0 : loopCount = 10 then
    (.tooManyRetries, [])
  else
    match callGetRollupSequencedBatches (oracle batchNum) with
    | .errLT32 | .errLT96 =>
      if h1 : 0 < batchNum then
        goResolve oracle (batchNum - 1) loopCount hle
      else
        let r := goResolve oracle batchNum (loopCount + 1) (by omega)
        (r.1, loopCount * 2 :: r.2)
    | .errCall =>
      let r := goResolve oracle batchNum (loopCount + 1) (by omega)
      (r.1, loopCount * 2 :: r.2)
    | .ok hsh previousBatch =>
      if hsh ≠ ZeroHash then
        (.ok hsh, [])
      else if h2 : 0 < batchNum ∧ previousBatch = 0 then
        goResolve oracle (batchNum - 1) loopCount hle
      else
        goResolve oracle previousBatch (loopCount + 1) (by omega)
termination_by (10 - loopCount, batchNum)
decreasing_by
  all_goals first
    | (apply Prod.Lex.right; omega)
    | (apply Prod.Lex.left; omega)

/-- `GetOldAccInputHash`: the loop entered with `loopCount = 0`. -/
def GetOldAccInputHash (oracle : Nat → CallRes) (batchNum : Nat) :
    ResolveRes × List Nat :=
  goResolve oracle batchNum 0 (by omega)

theorem goResolve_at_ten (oracle : Nat → CallRes) (batchNum : Nat)
    (hle : (10 : Nat) ≤ 10) :
    goResolve oracle batchNum 10 hle = (.tooManyRetries, []) := by
  rw [goResolve.eq_def, dif_pos rfl]

theorem goResolve_nonzero (oracle : Nat → CallRes) (batchNum loopCount : Nat)
    (hle : loopCount ≤ 10) (h0 : loopCount ≠ 10)
    (hsh : List (Fin 256)) (prev : Nat)
    (hdec : callGetRollupSequencedBatches (oracle batchNum) = .ok hsh prev)
    (hnz : hsh ≠ ZeroHash) :
    goResolve oracle batchNum loopCount hle = (.ok hsh, []) := by
  rw [goResolve.eq_def, dif_neg h0, hdec]
  dsimp only
  rw [if_pos hnz]

theorem goResolve_zero_walkback (oracle : Nat → CallRes) (batchNum loopCount : Nat)
    (hle : loopCount ≤ 10) (h0 : loopCount ≠ 10) (prev : Nat)
    (hdec : callGetRollupSequencedBatches (oracle batchNum) = .ok ZeroHash prev)
    (hbn : 0 < batchNum) (hprev : prev = 0) :
    goResolve oracle batchNum loopCount hle =
      goResolve oracle (batchNum - 1) loopCount hle := by
  rw [goResolve.eq_def, dif_neg h0, hdec]
  dsimp only
  rw [if_neg (by simp), dif_pos ⟨hbn, hprev⟩]

theorem goResolve_zero_follow (oracle : Nat → CallRes) (batchNum loopCount : Nat)
    (hle : loopCount ≤ 10) (h0 : loopCount ≠ 10) (prev : Nat)
    (hdec : callGetRollupSequencedBatches (oracle batchNum) = .ok ZeroHash prev)
    (hnot : ¬ (0 < batchNum ∧ prev = 0)) :
    goResolve oracle batchNum loopCount hle =
      goResolve oracle prev (loopCount + 1) (by omega) := by
  rw [goResolve.eq_def, dif_neg h0, hdec]
  dsimp only
  rw [if_neg (by simp), dif_neg hnot]

theorem goResolve_short (oracle : Nat → CallRes) (batchNum loopCount : Nat)
    (hle : loopCount ≤ 10) (h0 : loopCount ≠ 10)
    (hdec : callGetRollupSequencedBatches (oracle batchNum) = .errLT32 ∨
            callGetRollupSequencedBatches (oracle batchNum) = .errLT96)
    (hbn : 0 < batchNum) :
    goResolve oracle batchNum loopCount hle =
      goResolve oracle (batchNum - 1) loopCount hle := by
  rcases hdec with hdec | hdec <;>
    · rw [goResolve.eq_def, dif_neg h0, hdec]
      dsimp only
      rw [dif_pos hbn]

theorem goResolve_errCall (oracle : Nat → CallRes) (batchNum loopCount : Nat)
    (hle : loopCount ≤ 10) (h0 : loopCount ≠ 10)
    (hdec : callGetRollupSequencedBatches (oracle batchNum) = .errCall) :
    goResolve oracle batchNum loopCount hle =
      ((goResolve oracle batchNum (loopCount + 1) (by omega)).1,
        loopCount * 2 ::
          (goResolve oracle batchNum (loopCount + 1) (by omega)).2) := by
  rw [goResolve.eq_def, dif_neg h0, hdec]

theorem goResolve_short_zero (oracle : Nat → CallRes) (batchNum loopCount : Nat)
    (hle : loopCount ≤ 10) (h0 : loopCount ≠ 10)
    (hdec : callGetRollupSequencedBatches (oracle batchNum) = .errLT32 ∨
            callGetRollupSequencedBatches (oracle batchNum) = .errLT96)
    (hbn : ¬ 0 < batchNum) :
    goResolve oracle batchNum loopCount hle =
      ((goResolve oracle batchNum (loopCount + 1) (by omega)).1,
        loopCount * 2 ::
          (goResolve oracle batchNum (loopCount + 1) (by omega)).2) := by
  rcases hdec with hdec | hdec <;>
    · rw [goResolve.eq_def, dif_neg h0, hdec]
      dsimp only
      rw [dif_neg hbn]

/-- One loop iteration of `GetOldAccInputHash` as a step function: either a
return (`ret`) or the next (`batchNum`, `loopCount`) pair (`cont`). -/
inductive StepRes where
  | ret : ResolveRes → StepRes
  | cont : Nat → Nat → StepRes
  deriving DecidableEq, Repr

/-- The body of one iteration of the `GetOldAccInputHash` loop, mirroring
`goResolve` branch for branch. -/
def resolveStep (oracle : Nat → CallRes) (batchNum loopCount : Nat) : StepRes :=
  if loopCount = 10 then
    .ret .tooManyRetries
  else
    match callGetRollupSequencedBatches (oracle batchNum) with
    | .errLT32 | .errLT96 =>
      if 0 < batchNum then .cont (batchNum - 1) loopCount
      else .cont batchNum (loopCount + 1)
    | .errCall => .cont batchNum (loopCount + 1)
    | .ok hsh previousBatch =>
      if hsh ≠ ZeroHash then .ret (.ok hsh)
      else if 0 < batchNum ∧ previousBatch = 0 then .cont (batchNum - 1) loopCount
      else .cont previousBatch (loopCount + 1)

theorem resolveStep_measure (oracle : Nat → CallRes) (batchNum loopCount : Nat)
    (hle : loopCount ≤ 10) :
    (∃ r, resolveStep oracle batchNum loopCount = .ret r) ∨
    (∃ bn' lc', resolveStep oracle batchNum loopCount = .cont bn' lc' ∧
      Prod.Lex (· < ·) (· < ·) (10 - lc', bn') (10 - loopCount, batchNum)) := by
  by_cases h0 : loopCount = 10
  · exact Or.inl ⟨.tooManyRetries, by simp [resolveStep, h0]⟩
  · cases hdec : callGetRollupSequencedBatches (oracle batchNum) with
    | errCall =>
      exact Or.inr ⟨batchNum, loopCount + 1, by simp [resolveStep, h0, hdec],
        Prod.Lex.left _ _ (by omega)⟩
    | errLT32 =>
      by_cases hbn : 0 < batchNum
      · exact Or.inr ⟨batchNum - 1, loopCount, by simp [resolveStep, h0, hdec, hbn],
          Prod.Lex.right _ (by omega)⟩
      · exact Or.inr ⟨batchNum, loopCount + 1, by simp [resolveStep, h0, hdec, hbn],
          Prod.Lex.left _ _ (by omega)⟩
    | errLT96 =>
      by_cases hbn : 0 < batchNum
      · exact Or.inr ⟨batchNum - 1, loopCount, by simp [resolveStep, h0, hdec, hbn],
          Prod.Lex.right _ (by omega)⟩
      · exact Or.inr ⟨batchNum, loopCount + 1, by simp [resolveStep, h0, hdec, hbn],
          Prod.Lex.left _ _ (by omega)⟩
    | ok hsh prev =>
      by_cases hz : hsh = ZeroHash
      · by_cases hwb : 0 < batchNum ∧ prev = 0
        · exact Or.inr ⟨batchNum - 1, loopCount, by simp [resolveStep, h0, hdec, hz, hwb],
            Prod.Lex.right _ (by omega)⟩
        · exact Or.inr ⟨prev, loopCount + 1, by simp [resolveStep, h0, hdec, hz, hwb],
            Prod.Lex.left _ _ (by omega)⟩
      · exact Or.inl ⟨.ok hsh, by simp [resolveStep, h0, hdec, hz]⟩

theorem goResolve_ok_nonzero (oracle : Nat → CallRes) :
    ∀ (batchNum loopCount : Nat) (hle : loopCount ≤ 10) (hsh : List (Fin 256)),
      (goResolve oracle batchNum loopCount hle).1 = .ok hsh → hsh ≠ ZeroHash := by
  intro batchNum loopCount hle
  induction batchNum, loopCount, hle using goResolve.induct oracle with
  | case1 bn hle =>
    intro hsh h
    rw [goResolve_at_ten] at h
    exact absurd h (by simp)
  | case2 bn lc hle h0 hdec hbn ih =>
    intro hsh h
    rw [goResolve_short oracle bn lc hle h0 (Or.inl hdec) hbn] at h
    exact ih hsh h
  | case3 bn lc hle h0 hdec hbn ih =>
    intro hsh h
    rw [goResolve_short_zero oracle bn lc hle h0 (Or.inl hdec) hbn] at h
    exact ih hsh h
  | case4 bn lc hle h0 hdec hbn ih =>
    intro hsh h
    rw [goResolve_short oracle bn lc hle h0 (Or.inr hdec) hbn] at h
    exact ih hsh h
  | case5 bn lc hle h0 hdec hbn ih =>
    intro hsh h
    rw [goResolve_short_zero oracle bn lc hle h0 (Or.inr hdec) hbn] at h
    exact ih hsh h
  | case6 bn lc hle h0 hdec ih =>
    intro hsh h
    rw [goResolve_errCall oracle bn lc hle h0 hdec] at h
    exact ih hsh h
  | case7 bn lc hle h0 hsh0 prev hdec hnz =>
    intro hsh h
    rw [goResolve_nonzero oracle bn lc hle h0 hsh0 prev hdec hnz] at h
    dsimp only at h
    injection h with h
    subst h
    exact hnz
  | case8 bn lc hle h0 hsh0 prev hdec hz hwb ih =>
    intro hsh h
    push_neg at hz
    subst hz
    rw [goResolve_zero_walkback oracle bn lc hle h0 prev hdec hwb.1 hwb.2] at h
    exact ih hsh h
  | case9 bn lc hle h0 hsh0 prev hdec hz hwb ih =>
    intro hsh h
    push_neg at hz
    subst hz
    rw [goResolve_zero_follow oracle bn lc hle h0 prev hdec hwb] at h
    exact ih hsh h

/-- A 32-byte hash with first byte 1: a concrete non-zero hash. -/
def hashOne : List (Fin 256) := 1 :: List.replicate 31 0

/-- Contract stub for the malformed-response scenario: a 10-byte response
for batch 3, a valid 96-byte response with the non-zero hash `hashOne` for
batch 2, an RPC error elsewhere. -/
def oracleMalformed : Nat → CallRes := fun batchNum =>
  if batchNum = 3 then .ok (List.replicate 10 0)
  else if batchNum = 2 then .ok (1 :: List.replicate 95 0)
  else .err

/-- Contract stub for the walk-back scenario: zero hash with previous batch
number 0 for every positive batch, the non-zero hash `hashOne` for batch 0. -/
def oracleWalkback : Nat → CallRes := fun batchNum =>
  .ok (if batchNum = 0 then 1 :: List.replicate 95 0 else List.replicate 96 0)

theorem oracleMalformed_eval :
    GetOldAccInputHash oracleMalformed 3 = (.ok hashOne, []) := by
  rw [GetOldAccInputHash,
    goResolve_short oracleMalformed 3 0 (by omega) (by omega) (Or.inl (by decide))
      (by omega)]
  exact goResolve_nonzero oracleMalformed (3 - 1) 0 (by omega) (by omega) hashOne 0
    (by decide) (by decide)

theorem oracleWalkback_eval :
    GetOldAccInputHash oracleWalkback 5 = (.ok hashOne, []) := by
  rw [GetOldAccInputHash]
  rw [goResolve_zero_walkback oracleWalkback 5 0 (by omega) (by omega) 0 (by decide)
      (by omega) rfl]
  rw [goResolve_zero_walkback oracleWalkback (5 - 1) 0 (by omega) (by omega) 0 (by decide)
      (by omega) rfl]
  rw [goResolve_zero_walkback oracleWalkback (5 - 1 - 1) 0 (by omega) (by omega) 0
      (by decide) (by omega) rfl]
  rw [goResolve_zero_walkback oracleWalkback (5 - 1 - 1 - 1) 0 (by omega) (by omega) 0
      (by decide) (by omega) rfl]
  rw [goResolve_zero_walkback oracleWalkback (5 - 1 - 1 - 1 - 1) 0 (by omega) (by omega) 0
      (by decide) (by omega) rfl]
  exact goResolve_nonzero oracleWalkback (5 - 1 - 1 - 1 - 1 - 1) 0 (by omega) (by omega)
    hashOne 0 (by decide) (by decide)

theorem oracleWalkback_steps :
    resolveStep oracleWalkback 5 0 = .cont 4 0 ∧
    resolveStep oracleWalkback 4 0 = .cont 3 0 ∧
    resolveStep oracleWalkback 3 0 = .cont 2 0 ∧
    resolveStep oracleWalkback 2 0 = .cont 1 0 ∧
    resolveStep oracleWalkback 1 0 = .cont 0 0 ∧
    resolveStep oracleWalkback 0 0 = .ret (.ok hashOne) := by
  refine ⟨?_, ?_, ?_, ?_, ?_, ?_⟩ <;> decide

theorem resolveStep_ret_goResolve (oracle : Nat → CallRes) (batchNum loopCount : Nat)
    (hle : loopCount ≤ 10) (r : ResolveRes)
    (hstep : resolveStep oracle batchNum loopCount = .ret r) :
    (goResolve oracle batchNum loopCount hle).1 = r := by
  by_cases h0 : loopCount = 10
  · subst h0
    simp only [resolveStep, if_pos rfl] at hstep
    injection hstep with h
    subst h
    rw [goResolve_at_ten]
  · cases hdec : callGetRollupSequencedBatches (oracle batchNum) with
    | errCall => simp [resolveStep, h0, hdec] at hstep
    | errLT32 =>
      by_cases hbn : 0 < batchNum <;> simp [resolveStep, h0, hdec, hbn] at hstep
    | errLT96 =>
      by_cases hbn : 0 < batchNum <;> simp [resolveStep, h0, hdec, hbn] at hstep
    | ok hsh prev =>
      by_cases hz : hsh = ZeroHash
      · by_cases hwb : 0 < batchNum ∧ prev = 0 <;>
          simp [resolveStep, h0, hdec, hz, hwb] at hstep
      · simp only [resolveStep, if_neg h0, hdec, if_pos (show hsh ≠ ZeroHash from hz)] at hstep
        injection hstep with h
        subst h
        rw [goResolve_nonzero oracle batchNum loopCount hle h0 hsh prev hdec hz]

theorem resolveStep_cont_goResolve (oracle : Nat → CallRes) (batchNum loopCount : Nat)
    (hle : loopCount ≤ 10) (bn' lc' : Nat)
    (hstep : resolveStep oracle batchNum loopCount = .cont bn' lc') :
    ∃ h' : lc' ≤ 10,
      (goResolve oracle batchNum loopCount hle).1 =
        (goResolve oracle bn' lc' h').1 := by
  by_cases h0 : loopCount = 10
  · subst h0
    simp [resolveStep] at hstep
  · cases hdec : callGetRollupSequencedBatches (oracle batchNum) with
    | errCall =>
      simp only [resolveStep, if_neg h0, hdec] at hstep
      injection hstep with h1 h2
      subst h1; subst h2
      exact ⟨by omega, by rw [goResolve_errCall oracle batchNum loopCount hle h0 hdec]⟩
    | errLT32 =>
      by_cases hbn : 0 < batchNum
      · simp only [resolveStep, if_neg h0, hdec, if_pos hbn] at hstep
        injection hstep with h1 h2
        subst h1; subst h2
        exact ⟨hle, by
          rw [goResolve_short oracle batchNum loopCount hle h0 (Or.inl hdec) hbn]⟩
      · simp only [resolveStep, if_neg h0, hdec, if_neg hbn] at hstep
        injection hstep with h1 h2
        subst h1; subst h2
        exact ⟨by omega, by
          rw [goResolve_short_zero oracle batchNum loopCount hle h0 (Or.inl hdec) hbn]⟩
    | errLT96 =>
      by_cases hbn : 0 < batchNum
      · simp only [resolveStep, if_neg h0, hdec, if_pos hbn] at hstep
        injection hstep with h1 h2
        subst h1; subst h2
        exact ⟨hle, by
          rw [goResolve_short oracle batchNum loopCount hle h0 (Or.inr hdec) hbn]⟩
      · simp only [resolveStep, if_neg h0, hdec, if_neg hbn] at hstep
        injection hstep with h1 h2
        subst h1; subst h2
        exact ⟨by omega, by
          rw [goResolve_short_zero oracle batchNum loopCount hle h0 (Or.inr hdec) hbn]⟩
    | ok hsh prev =>
      by_cases hz : hsh = ZeroHash
      · subst hz
        by_cases hwb : 0 < batchNum ∧ prev = 0
        · simp only [resolveStep, if_neg h0, hdec, if_neg (show ¬ ZeroHash ≠ ZeroHash by simp),
            if_pos hwb] at hstep
          injection hstep with h1 h2
          subst h1; subst h2
          exact ⟨hle, by
            rw [goResolve_zero_walkback oracle batchNum loopCount hle h0 prev hdec hwb.1
              hwb.2]⟩
        · simp only [resolveStep, if_neg h0, hdec, if_neg (show ¬ ZeroHash ≠ ZeroHash by simp),
            if_neg hwb] at hstep
          injection hstep with h1 h2
          subst h1; subst h2
          exact ⟨by omega, by
            rw [goResolve_zero_follow oracle batchNum loopCount hle h0 prev hdec hwb]⟩
      · simp only [resolveStep, if_neg h0, hdec,
          if_pos (show hsh ≠ ZeroHash from hz)] at hstep
        exact absurd hstep (by simp)

/-- Claim C1: the backward-walk rules of `GetOldAccInputHash`, for every
oracle and starting batch number: a non-zero hash is returned immediately; a
zero hash with `previousBatchNumber = 0` while `batchNum > 0` decrements
`batchNum` without touching the attempt counter; any other zero hash sets
`batchNum = previousBatchNumber` and increments the counter; a counter of 10
returns the "too many retries" error; and the resolution starts the loop at
counter 0. -/
theorem resolver_backward_walk_rules :
    (∀ (oracle : Nat → CallRes) (batchNum : Nat) (hle : (10 : Nat) ≤ 10),
      goResolve oracle batchNum 10 hle = (.tooManyRetries, [])) ∧
    (∀ (oracle : Nat → CallRes) (batchNum loopCount : Nat) (hle : loopCount ≤ 10)
        (h0 : loopCount ≠ 10) (hsh : List (Fin 256)) (prev : Nat),
      callGetRollupSequencedBatches (oracle batchNum) = .ok hsh prev →
      hsh ≠ ZeroHash →
      goResolve oracle batchNum loopCount hle = (.ok hsh, [])) ∧
    (∀ (oracle : Nat → CallRes) (batchNum loopCount : Nat) (hle : loopCount ≤ 10)
        (h0 : loopCount ≠ 10) (prev : Nat),
      callGetRollupSequencedBatches (oracle batchNum) = .ok ZeroHash prev →
      0 < batchNum → prev = 0 →
      goResolve oracle batchNum loopCount hle =
        goResolve oracle (batchNum - 1) loopCount hle) ∧
    (∀ (oracle : Nat → CallRes) (batchNum loopCount : Nat) (hle : loopCount ≤ 10)
        (hle' : loopCount + 1 ≤ 10) (h0 : loopCount ≠ 10) (prev : Nat),
      callGetRollupSequencedBatches (oracle batchNum) = .ok ZeroHash prev →
      ¬ (0 < batchNum ∧ prev = 0) →
      goResolve oracle batchNum loopCount hle =
        goResolve oracle prev (loopCount + 1) hle') ∧
    (∀ (oracle : Nat → CallRes) (batchNum : Nat),
      GetOldAccInputHash oracle batchNum = goResolve oracle batchNum 0 (by omega)) := by
  refine ⟨goResolve_at_ten, goResolve_nonzero, ?_, ?_, fun _ _ => rfl⟩
  · intro oracle bn lc hle h0 prev hdec hbn hprev
    exact goResolve_zero_walkback oracle bn lc hle h0 prev hdec hbn hprev
  · intro oracle bn lc hle hle' h0 prev hdec hnot
    exact goResolve_zero_follow oracle bn lc hle h0 prev hdec hnot

theorem resolver_backward_walk_rules_witness :
    goResolve oracleWalkback 5 0 (by omega) = goResolve oracleWalkback (5 - 1) 0 (by omega) ∧
    goResolve oracleWalkback 0 0 (by omega) = (.ok hashOne, []) :=
  ⟨resolver_backward_walk_rules.2.2.1 oracleWalkback 5 0 (by omega) (by omega) 0
      (by decide) (by omega) rfl,
   resolver_backward_walk_rules.2.1 oracleWalkback 0 0 (by omega) (by omega) hashOne 0
      (by decide) (by decide)⟩

/-- Claim C5: responses shorter than 32 bytes decode to the first
distinguished error and responses of length in `[32, 96)` to the second; on
either error with `batchNum > 0` the resolver moves to `batchNum - 1` with
the attempt counter and the recorded sleeps unchanged (no backoff); and the
concrete malformed-response scenario (10-byte response at batch 3, valid
non-zero 96-byte response at batch 2) resolves from batch 3 to the batch-2
hash with no sleeps. -/
theorem resolver_malformed_fallback :
    (∀ resp : List (Fin 256), resp.length < 32 →
      callGetRollupSequencedBatches (.ok resp) = .errLT32) ∧
    (∀ resp : List (Fin 256), 32 ≤ resp.length → resp.length < 96 →
      callGetRollupSequencedBatches (.ok resp) = .errLT96) ∧
    (∀ (oracle : Nat → CallRes) (batchNum loopCount : Nat) (hle : loopCount ≤ 10)
        (h0 : loopCount ≠ 10),
      (callGetRollupSequencedBatches (oracle batchNum) = .errLT32 ∨
       callGetRollupSequencedBatches (oracle batchNum) = .errLT96) →
      0 < batchNum →
      goResolve oracle batchNum loopCount hle =
        goResolve oracle (batchNum - 1) loopCount hle) ∧
    GetOldAccInputHash oracleMalformed 3 = (.ok hashOne, []) := by
  refine ⟨?_, ?_, goResolve_short, oracleMalformed_eval⟩
  · intro resp h
    simp [callGetRollupSequencedBatches, h]
  · intro resp h1 h2
    simp only [callGetRollupSequencedBatches]
    rw [if_neg (by omega), if_pos h2]

theorem resolver_malformed_fallback_witness :
    goResolve oracleMalformed 3 0 (by omega) =
      goResolve oracleMalformed (3 - 1) 0 (by omega) :=
  resolver_malformed_fallback.2.2.1 oracleMalformed 3 0 (by omega) (by omega)
    (Or.inl (by decide)) (by omega)

/-- Claim C6: termination of `GetOldAccInputHash`.  Every loop iteration
either returns or strictly decreases the lexicographic measure
`(10 - loopCount, batchNum)`; the step function agrees with the recursive
resolver in both the return and continue cases; and the concrete walk-back
stub (zero hash with previous pointer 0 at batches 5..1, non-zero hash at 0)
walks 5,4,3,2,1,0 in five decrement steps and returns the batch-0 hash. -/
theorem resolver_termination :
    (∀ (oracle : Nat → CallRes) (batchNum loopCount : Nat), loopCount ≤ 10 →
      (∃ r, resolveStep oracle batchNum loopCount = .ret r) ∨
      (∃ bn' lc', resolveStep oracle batchNum loopCount = .cont bn' lc' ∧
        Prod.Lex (· < ·) (· < ·) (10 - lc', bn') (10 - loopCount, batchNum))) ∧
    (∀ (oracle : Nat → CallRes) (batchNum loopCount : Nat) (hle : loopCount ≤ 10)
        (r : ResolveRes), resolveStep oracle batchNum loopCount = .ret r →
      (goResolve oracle batchNum loopCount hle).1 = r) ∧
    (∀ (oracle : Nat → CallRes) (batchNum loopCount : Nat) (hle : loopCount ≤ 10)
        (bn' lc' : Nat), resolveStep oracle batchNum loopCount = .cont bn' lc' →
      ∃ h' : lc' ≤ 10,
        (goResolve oracle batchNum loopCount hle).1 = (goResolve oracle bn' lc' h').1) ∧
    (resolveStep oracleWalkback 5 0 = .cont 4 0 ∧
     resolveStep oracleWalkback 4 0 = .cont 3 0 ∧
     resolveStep oracleWalkback 3 0 = .cont 2 0 ∧
     resolveStep oracleWalkback 2 0 = .cont 1 0 ∧
     resolveStep oracleWalkback 1 0 = .cont 0 0 ∧
     resolveStep oracleWalkback 0 0 = .ret (.ok hashOne)) ∧
    GetOldAccInputHash oracleWalkback 5 = (.ok hashOne, []) :=
  ⟨resolveStep_measure, resolveStep_ret_goResolve, resolveStep_cont_goResolve,
   oracleWalkback_steps, oracleWalkback_eval⟩

theorem resolver_termination_witness :
    (∃ r, resolveStep oracleWalkback 0 0 = .ret r) ∨
    (∃ bn' lc', resolveStep oracleWalkback 0 0 = .cont bn' lc' ∧
      Prod.Lex (· < ·) (· < ·) (10 - lc', bn') (10 - 0, 0)) :=
  resolver_termination.1 oracleWalkback 0 0 (by omega)

/-- Claim C10: whenever `GetOldAccInputHash` returns a hash without an error,
that hash is non-zero — the zero hash is never a successful result (the
source returns a hash early only under `h != types.ZeroHash`; the error
return carries the zero value `common.Hash{}` together with the "too many
retries" error). -/
theorem resolver_success_nonzero :
    ∀ (oracle : Nat → CallRes) (batchNum : Nat) (hsh : List (Fin 256)),
      (GetOldAccInputHash oracle batchNum).1 = .ok hsh → hsh ≠ ZeroHash :=
  fun oracle batchNum hsh h => goResolve_ok_nonzero oracle batchNum 0 (by omega) hsh h

theorem resolver_success_nonzero_witness : hashOne ≠ ZeroHash :=
  resolver_success_nonzero oracleWalkback 5 hashOne (by rw [oracleWalkback_eval])

end L1Syncer
